import Mathlib

/-!
Verification development for the yon server bus (src/yon/__init__.py and
src/rxcat/_transport.py): a shallow embedding of the bus data model and the
operations the examined properties speak about, followed by theorems that
settle those properties.

Python dictionaries are embedded as association lists preserving insertion
order; subscriber functions are embedded as opaque identifiers (`SubFnId`)
together with a behaviour environment `SubEnv` mapping each identifier and
received body to the retval the function produces.
-/

namespace Yon

/-- Python `d.get(k)` over an association list. -/
def dget {V : Type} (d : List (String × V)) (k : String) : Option V :=
  match d with
  | [] => none
  | (k1, v) :: rest => if k1 = k then some v else dget rest k

/-- Python `k in d`. -/
def dcontains {V : Type} (d : List (String × V)) (k : String) : Bool :=
  (dget d k).isSome

/-- Python `d[k] = v`: replace in place when the key exists, else append
(dicts preserve insertion order). -/
def dset {V : Type} (d : List (String × V)) (k : String) (v : V) :
    List (String × V) :=
  match d with
  | [] => [(k, v)]
  | (k1, v1) :: rest =>
    if k1 = k then (k, v) :: rest else (k1, v1) :: dset rest k v

/-- Python `del d[k]` (the key is present at most once in a dict). -/
def derase {V : Type} (d : List (String × V)) (k : String) :
    List (String × V) :=
  match d with
  | [] => []
  | (k1, v1) :: rest => if k1 = k then rest else (k1, v1) :: derase rest k

/-- Keys of an association list appear at most once (always true of the
embedding of a Python dict). -/
def KeysUnique {V : Type} (d : List (String × V)) : Prop :=
  (d.map Prod.fst).Nodup

/-- Identifier of one subscriber function object. `_apply_opts_to_subfn`
wraps every subscription in a fresh closure, so distinct subscriptions carry
distinct identifiers even for the same underlying function. -/
abbrev SubFnId := Nat

/-- An application message body (an `Mbody`): the code registered for its
type, whether the value is a Python `Exception` instance, and a payload
discriminator standing for the schema fields. -/
structure Mbody where
  code : String
  isExc : Bool := false
  val : Nat := 0
deriving DecidableEq, Repr

/-- Modelled from the spec: the `ok` sentinel type lives in yon._msg, which
is absent from src; §6 gives it the code "yon::ok" and an empty body, and
`_call_subfn` publishes `ok()` in place of a `None` retval. -/
def okBody : Mbody := { code := "yon::ok" }

/-- Dynamic retval of a subscriber function, after the wrapping pipeline:
`ryz.res` Ok and Err wrappers, the `SkipMe` and `InterruptPipeline` markers,
a class object, a `PubList`, a plain body, or Python `None`. A `PubList` is
declared `list[Mbody]` in the source; its elements are embedded as bodies
or `None`. -/
inductive SubRet where
  | rOk (v : SubRet)
  | rErr (v : SubRet)
  | skipMe
  | interrupt (b : Mbody)
  | cls
  | pubList (xs : List (Option Mbody))
  | body (b : Mbody)
  | pyNone
deriving DecidableEq, Repr

/-- The in-memory envelope `BusMsg` from yon._msg (absent from src).
Modelled from the spec (§3): `{sid, lsid?, bodycode, body, target_connsids?,
source_connsid?}`, created with a fresh unique sid on publish. The
`skip__`-prefixed source fields are `bodycode`, `targets` and `connsid`. -/
structure BusMsg where
  sid : String
  lsid : Option String := none
  bodycode : String
  body : Mbody
  targets : Option (List String) := none
  connsid : Option String := none
deriving DecidableEq, Repr

/-- The ambient `_yon_ctx` dictionary, restricted to the keys the bus
reads: `msid`, `connsid` and `subfn_lsid`. An absent key is `none`. -/
structure Ctx where
  msid : Option String := none
  connsid : Option String := none
  subfn_lsid : Option String := none
deriving DecidableEq, Repr

/-- Decidable equality of Except values, for the concrete evaluations. -/
instance {A B : Type} [DecidableEq A] [DecidableEq B] :
    DecidableEq (Except A B) := fun a b =>
  match a, b with
  | .error x, .error y =>
    if h : x = y then .isTrue (by rw [h])
    else .isFalse (fun hh => h (Except.error.inj hh))
  | .ok x, .ok y =>
    if h : x = y then .isTrue (by rw [h])
    else .isFalse (fun hh => h (Except.ok.inj hh))
  | .error _, .ok _ => .isFalse (fun hh => Except.noConfusion hh)
  | .ok _, .error _ => .isFalse (fun hh => Except.noConfusion hh)

/-- Abstract error kinds of the `ryz` result values the bus returns. -/
inductive YonErr where
  | valErr (msg : String)
  | notFoundErr (msg : String)
  | alreadyProcessedErr
  | timeoutErr
  | excErr (b : Mbody)
deriving DecidableEq, Repr

/-- `PubOpts` (the fields the embedded operations consult); `subfn` holds
the identifier of the waiter function when set. -/
structure PubOpts where
  subfn : Option SubFnId := none
  target_connsids : Option (List String) := none
  lsid : Option String := none
  send_to_inner : Bool := true
  send_to_net : Bool := true
deriving DecidableEq, Repr

/-- The bus tables owned by `ServerBus` that the examined claims touch,
plus the registered-code list and a counter producing the fresh uuid4 sids
of published messages. -/
structure BusState where
  subsidToCode : List (String × String) := []
  subsidToSubfn : List (String × SubFnId) := []
  codeToSubfns : List (String × List SubFnId) := []
  codeToLastMbody : List (String × Mbody) := []
  lsidToSubfn : List (String × SubFnId) := []
  regdCodes : List String := []
  nextSid : Nat := 0
deriving DecidableEq, Repr

/-- Fresh sid produced for the n-th published message. -/
def sidOf (n : Nat) : String := "sid" ++ toString n

/-- Python exceptions that escape the embedded operations. -/
inductive PyExc where
  | attributeError (attr : String)
  | assertionError
deriving DecidableEq, Repr

/-- A dynamically typed Python value as handed to `_call_subfn`: either a
real `BusMsg` envelope or a plain pydantic body. -/
inductive PyVal where
  | busMsg (m : BusMsg)
  | mbody (b : Mbody)
deriving DecidableEq, Repr

/-- Python attribute access `x.sid`: a `BusMsg` has the field; a plain
pydantic body whose schema declares no `sid` field raises AttributeError. -/
def getattrSid : PyVal → Except PyExc String
  | .busMsg m => .ok m.sid
  | .mbody _ => .error (.attributeError "sid")

/-- Python attribute access `x.body`, analogously. -/
def getattrBody : PyVal → Except PyExc Mbody
  | .busMsg m => .ok m.body
  | .mbody _ => .error (.attributeError "body")

/-- ServerBus._call_subfn up to the subscriber invocation, with its
argument handled dynamically: `_gen_ctx_dict_for_msg` reads `msg.sid`
(raising first when absent), then the subscriber is invoked with
`msg.body`. Returns the invocation that happens, or the exception raised.
The retval publication that follows a successful invocation is embedded
separately (`callSubfn` below) and is unreachable from the one call site
that passes a plain body. -/
def callSubfnDynArg (f : SubFnId) (arg : PyVal) :
    Except PyExc (SubFnId × Mbody) :=
  match getattrSid arg with
  | .error e => .error e
  | .ok _ =>
    match getattrBody arg with
    | .error e => .error e
    | .ok b => .ok (f, b)

/-- Codes of the reserved RPC envelope types `SrpcSend` and `SrpcRecv`. -/
def srpcCodes : List String := ["yon::srpc_send", "yon::srpc_recv"]

/-- Outcome of `ServerBus.sub`: an Ok result carrying the subsid (the
unsubscribe handle), an Err result, or an uncaught Python exception. -/
inductive SubOutcome where
  | okRes (subsid : String)
  | errRes (e : YonErr)
  | raised (e : PyExc)
deriving DecidableEq, Repr

/-- ServerBus.sub (source lines 520-575) with the Python introspection
resolved: the body type inferred from the subfn signature is given as its
registered `code`, the fresh uuid4 `subsid` is given as an argument, and
`f` is the identifier of the wrapper `_apply_opts_to_subfn` builds. After
the `_check_norpc_mbody` and registry checks the three subscription tables
are updated, and with `recv_last_msg` set a cached last body is replayed
through `_call_subfn`. Returns the outcome, the new state, and the list of
subscriber invocations performed during the call. -/
def subModel (st : BusState) (subsid : String) (f : SubFnId) (code : String)
    (recvLast : Bool) : SubOutcome × BusState × List (SubFnId × Mbody) :=
  if code ∈ srpcCodes then
    (.errRes (.valErr "rpc body cannot be associated with subscription"), st, [])
  else if code ∈ st.regdCodes then
    let st1 := { st with
      codeToSubfns :=
        dset st.codeToSubfns code (((dget st.codeToSubfns code).getD []) ++ [f])
      subsidToSubfn := dset st.subsidToSubfn subsid f
      subsidToCode := dset st.subsidToCode subsid code }
    if recvLast then
      match dget st1.codeToLastMbody code with
      | some lastBody =>
        match callSubfnDynArg f (.mbody lastBody) with
        | .error e => (.raised e, st1, [])
        | .ok inv => (.okRes subsid, st1, [inv])
      | none => (.okRes subsid, st1, [])
    else (.okRes subsid, st1, [])
  else (.errRes (.valErr "code is not regd"), st, [])

/-- Outcome of `ServerBus.unsub`. -/
inductive UnsubOutcome where
  | okRes
  | errRes (e : YonErr)
  | raised (e : PyExc)
deriving DecidableEq, Repr

/-- ServerBus.unsub (source lines 577-590): a missing subsid is a non-fatal
Err; the source then asserts that the subsid's code is still a key of
`_code_to_subfns` and that the subsid is in `_subsid_to_subfn` ("all maps
must be synced"), deletes the two subsid entries, and deletes the whole
`_code_to_subfns` entry of the code. -/
def unsubModel (st : BusState) (subsid : String) : UnsubOutcome × BusState :=
  match dget st.subsidToCode subsid with
  | none => (.errRes (.valErr "sub not found"), st)
  | some code =>
    if dcontains st.codeToSubfns code then
      if dcontains st.subsidToSubfn subsid then
        (.okRes,
         { st with
           subsidToCode := derase st.subsidToCode subsid
           subsidToSubfn := derase st.subsidToSubfn subsid
           codeToSubfns := derase st.codeToSubfns code })
      else (.raised .assertionError, st)
    else (.raised .assertionError, st)

/-- The spec's subscription-table invariant (§8, invariant 1): every subsid
present in any subscription table is present in all three and the subfn
list of its code contains its subfn exactly once. Subsids live in the two
subsid-keyed tables; `_code_to_subfns` is keyed by code. -/
def subTablesConsistent (st : BusState) : Bool :=
  (st.subsidToCode.map Prod.fst ++ st.subsidToSubfn.map Prod.fst).all
    fun subsid =>
      match dget st.subsidToCode subsid, dget st.subsidToSubfn subsid with
      | some code, some f => ((dget st.codeToSubfns code).getD []).count f = 1
      | _, _ => false

/-- Behaviour environment of the subscriber functions: what retval the
subfn with a given identifier produces for a given body. -/
abbrev SubEnv := SubFnId → Mbody → SubRet

/-- Observable events of a publication: the entry into each of the three
send-order steps of `_exec_pub_send_order` (tagged with the envelope's
sid), the enqueue of a serialized message for a target connection, the
invocation of an in-process subscriber, the invocation of a linked waiter
(with the delivered body), and each retval value handed back to `pub` by
`_call_subfn` (with the lsid option it is published under). -/
inductive Ev where
  | stepNet (sid : String)
  | stepInner (sid : String)
  | stepLinked (sid : String)
  | netSend (connsid : String) (sid : String)
  | subfnCall (f : SubFnId) (msid : String)
  | waiterCall (f : SubFnId) (lsid : String) (body : Mbody)
  | pubVal (v : SubRet) (lsid : Option String)
deriving DecidableEq, Repr

/-- Result triple of the embedded `pub`: the returned Res, the new bus
state, and the events of the call. -/
abbrev PubRet := Except YonErr Unit × BusState × List Ev

/-- Input of `pub`: a `BusMsg` envelope used verbatim (internal usage, as
from `_accept_net_msg`), or a dynamic application value. -/
inductive PubInp where
  | busMsg (m : BusMsg)
  | val (v : SubRet)
deriving DecidableEq, Repr

/-- Shape of the recursive publication entry point handed to the helpers
(the helpers republish subscriber retvals through it). -/
abbrev PubFnT := BusState → Ctx → PubInp → PubOpts → PubRet

/-- ServerBus.get_ctx_key for the "msid" entry: the source tests the value
with `if val:`, so an absent or empty msid yields NotFoundErr. -/
def getCtxMsid (ctx : Ctx) : Except YonErr String :=
  match ctx.msid with
  | some s => if s = "" then .error (.notFoundErr "msid") else .ok s
  | none => .error (.notFoundErr "msid")

/-- ServerBus.get_ctx_connsid, with the same falsiness rule. -/
def getCtxConnsid (ctx : Ctx) : Except YonErr String :=
  match ctx.connsid with
  | some s => if s = "" then .error (.notFoundErr "connsid") else .ok s
  | none => .error (.notFoundErr "connsid")

/-- Python `lsid.startswith("$")`: the first character is the operator
marker (stated over the character list, which the kernel can compute). -/
def startsWithDollar (l : String) : Bool := l.data.head? = some '$'

/-- ServerBus._unpack_lsid (source lines 707-718): the literal
"$ctx::msid" resolves to the ambient msid (Err when the ctx has none); any
other string starting with "$" is a value error; everything else, None
included, passes through unchanged. -/
def unpackLsid (ctx : Ctx) (lsid : Option String) :
    Except YonErr (Option String) :=
  match lsid with
  | some l =>
    if l = "$ctx::msid" then
      match getCtxMsid ctx with
      | .error e => .error e
      | .ok m => .ok (some m)
    else if startsWithDollar l then
      .error (.valErr "unrecognized PubOpts.lsid operator")
    else .ok (some l)
  | none => .ok none

/-- Python truthiness of the lsid field: a present, non-empty string. -/
def lsidTruthy : Option String → Bool
  | none => false
  | some s => !(s = "")

/-- Target connsids defaulted from the ambient context when
`opts.target_connsids` is falsy (absent or the empty list). -/
def ctxTargets (ctx : Ctx) : Option (List String) :=
  match getCtxConnsid ctx with
  | .ok c => some [c]
  | .error _ => none

/-- Code.get_from_type over the dynamic argument of `pub`: only a plain
body carries a coded type (the type registry itself lives in the external
ryz package). -/
def codeOfVal : SubRet → Except YonErr String
  | .body b => .ok b.code
  | _ => .error (.valErr "type has no code")

/-- ServerBus._make_msg (source lines 720-750): resolve the body's code
and require it registered, run `_unpack_err` (identity here up to logging:
the UnwrapErr rewrapping concerns only `ryz` result internals), resolve
the lsid from opts, default the targets from the ambient connsid, and
build the envelope with a fresh sid. -/
def makeMsg (st : BusState) (ctx : Ctx) (v : SubRet) (opts : PubOpts) :
    Except YonErr (BusMsg × BusState) :=
  match codeOfVal v with
  | .error e => .error e
  | .ok code =>
    if code ∈ st.regdCodes then
      match unpackLsid ctx opts.lsid with
      | .error e => .error e
      | .ok lsid =>
        let targets : Option (List String) :=
          match opts.target_connsids with
          | some l => if l.isEmpty then ctxTargets ctx else some l
          | none => ctxTargets ctx
        match v with
        | .body b =>
          .ok ({ sid := sidOf st.nextSid, lsid := lsid, bodycode := code,
                 body := b, targets := targets, connsid := none },
               { st with nextSid := st.nextSid + 1 })
        | _ => .error (.valErr "type has no code")
    else .error (.valErr "code is not registered")

/-- ServerBus._check_norpc_mbody as invoked from `pub` (source line 678):
`pub` passes the `BusMsg` envelope itself, and an envelope is never an
instance of `SrpcSend` or `SrpcRecv`, so the check always passes. -/
def checkNorpcMsg (_m : BusMsg) : Except YonErr Unit := .ok ()

/-- ServerBus._gen_ctx_dict_for_msg (source lines 809-816) for a genuine
envelope: msid is set to the message sid; a truthy source connsid
overrides the ambient one. -/
def genCtx (ctx : Ctx) (msg : BusMsg) : Ctx :=
  { ctx with
    msid := some msg.sid
    connsid :=
      match msg.connsid with
      | some c => if c = "" then ctx.connsid else some c
      | none => ctx.connsid }

/-- ServerBus._parse_subfn_retval (source lines 852-879): one unwrap of an
Ok wrapper, then one unwrap of an Err wrapper of the result; SkipMe gives
no bodies; InterruptPipeline and a class value give no bodies plus a
logged error (the Bool); a PubList gives its elements; anything else is a
one-element list. -/
def parseSubfnRetval (r : SubRet) : List SubRet × Bool :=
  let r1 := match r with | .rOk v => v | _ => r
  let r2 := match r1 with | .rErr v => v | _ => r1
  match r2 with
  | .skipMe => ([], false)
  | .interrupt _ => ([], true)
  | .cls => ([], true)
  | .pubList xs =>
    (xs.map fun o => match o with | none => SubRet.pyNone | some b => SubRet.body b,
     false)
  | x => ([x], false)

/-- PubOpts(lsid=lsid) as built in `_call_subfn`: every other field at its
default. -/
def mkLsidOpts (lsid : String) : PubOpts :=
  { subfn := none, target_connsids := none, lsid := some lsid,
    send_to_inner := true, send_to_net := true }

/-- The republication loop at the end of `_call_subfn` (source lines
846-850): each retval value, with None replaced by `ok()`, is handed back
to `pub` under the prepared opts. Returns the final state, the events, and
the list of (value, lsid option) pairs passed to `pub`. -/
def pubValsLoop (pubFn : PubFnT) (ctx : Ctx) (opts : PubOpts) :
    BusState → List SubRet → BusState × List Ev × List (SubRet × Option String)
  | st, [] => (st, [], [])
  | st, v :: rest =>
    let v1 := match v with | .pyNone => SubRet.body okBody | _ => v
    let r := pubFn st ctx (.val v1) opts
    let rec1 := pubValsLoop pubFn ctx opts r.2.1 rest
    (rec1.1, Ev.pubVal v1 opts.lsid :: r.2.2 ++ rec1.2.1, (v1, opts.lsid) :: rec1.2.2)

/-- ServerBus._call_subfn (source lines 818-850) for a genuine envelope
argument: install the ambient context derived from the envelope
(`cfg.sub_ctxfn` is unset), invoke the subscriber, reduce the retval, and
republish each resulting value under the ambient subfn lsid, defaulting to
"$ctx::msid". -/
def callSubfn (env : SubEnv) (pubFn : PubFnT) (st : BusState) (ctx : Ctx)
    (f : SubFnId) (msg : BusMsg) :
    BusState × List Ev × List (SubRet × Option String) :=
  let ctx1 := genCtx ctx msg
  let vals := (parseSubfnRetval (env f msg.body)).1
  if vals.isEmpty then (st, [Ev.subfnCall f msg.sid], [])
  else
    let lsid := ctx1.subfn_lsid.getD "$ctx::msid"
    let r := pubValsLoop pubFn ctx1 (mkLsidOpts lsid) st vals
    (r.1, Ev.subfnCall f msg.sid :: r.2.1, r.2.2)

/-- The sequential subscriber loop of `_send_to_inner_bus`. -/
def callSubfnList (env : SubEnv) (pubFn : PubFnT) (ctx : Ctx) (msg : BusMsg) :
    BusState → List SubFnId → BusState × List Ev
  | st, [] => (st, [])
  | st, f :: rest =>
    let r1 := callSubfn env pubFn st ctx f msg
    let r2 := callSubfnList env pubFn ctx msg r1.1 rest
    (r2.1, r1.2.1 ++ r2.2)

/-- ServerBus._send_to_inner_bus (source lines 766-771). -/
def sendToInnerBus (env : SubEnv) (pubFn : PubFnT) (st : BusState)
    (ctx : Ctx) (msg : BusMsg) : BusState × List Ev :=
  callSubfnList env pubFn ctx msg st ((dget st.codeToSubfns msg.bodycode).getD [])

/-- ServerBus._send_as_linked (source lines 796-801): with a truthy lsid,
the registered waiter, when present, is invoked with the message; the
waiter table is not modified. -/
def sendAsLinked (env : SubEnv) (pubFn : PubFnT) (st : BusState) (ctx : Ctx)
    (msg : BusMsg) : BusState × List Ev :=
  match msg.lsid with
  | none => (st, [])
  | some l =>
    if l = "" then (st, [])
    else
      match dget st.lsidToSubfn l with
      | none => (st, [])
      | some f =>
        let r := callSubfn env pubFn st ctx f msg
        (r.1, Ev.waiterCall f l msg.body :: r.2.1)

/-- BusMsg.serialize_to_net lives in yon._msg, absent from src. Modelled
from the spec (§4.2): serialization requires the bodycode to resolve in
the registry; on failure `_pub_msg_to_net` skips the send. -/
def serializeOk (st : BusState) (msg : BusMsg) : Bool :=
  msg.bodycode ∈ st.regdCodes

/-- ServerBus._pub_msg_to_net (source lines 773-778), at the event level:
with truthy targets and successful serialization, one enqueue per target
connsid (the per-target queue mechanics are embedded separately for the
overflow-policy claim). -/
def pubMsgToNet (st : BusState) (msg : BusMsg) : List Ev :=
  match msg.targets with
  | none => []
  | some l =>
    if l.isEmpty then []
    else if serializeOk st msg then l.map (fun c => Ev.netSend c msg.sid)
    else []

/-- ServerBus._exec_pub_send_order (source lines 752-764): net when
`send_to_net`; inner when `send_to_inner` and the bodycode has an entry in
`_code_to_subfns`; linked when the envelope's lsid is truthy. Each entered
step is tagged in the event list with the envelope's sid. -/
def execPubSendOrder (env : SubEnv) (pubFn : PubFnT) (st : BusState)
    (ctx : Ctx) (msg : BusMsg) (opts : PubOpts) : BusState × List Ev :=
  let evs1 :=
    if opts.send_to_net then Ev.stepNet msg.sid :: pubMsgToNet st msg else []
  let r2 :=
    if opts.send_to_inner && dcontains st.codeToSubfns msg.bodycode then
      let r := sendToInnerBus env pubFn st ctx msg
      (r.1, Ev.stepInner msg.sid :: r.2)
    else (st, [])
  let r3 :=
    if lsidTruthy msg.lsid then
      let r := sendAsLinked env pubFn r2.1 ctx msg
      (r.1, Ev.stepLinked msg.sid :: r.2)
    else (r2.1, [])
  (r3.1, evs1 ++ r2.2 ++ r3.2)

/-- Tail of `pub` after the waiter registration: the last-message cache
write (source line 687) and the send order. -/
def pubFinish (env : SubEnv) (pubFn : PubFnT) (st : BusState) (ctx : Ctx)
    (msg : BusMsg) (opts : PubOpts) : PubRet :=
  let st1 :=
    { st with codeToLastMbody := dset st.codeToLastMbody msg.bodycode msg.body }
  let r := execPubSendOrder env pubFn st1 ctx msg opts
  (.ok (), r.1, r.2)

/-- The single unwrap of an Ok or Err wrapper at the top of `pub` (source
lines 662-665; the source uses if/elif, so exactly one layer comes off). -/
def unwrapOnce (inp : PubInp) : PubInp :=
  match inp with
  | .val (.rOk v) => PubInp.val v
  | .val (.rErr v) => PubInp.val v
  | x => x

/-- Envelope selection of `pub` (source lines 667-676): a `BusMsg` passes
verbatim, anything else goes through `_make_msg`. -/
def mkEnvelope (st : BusState) (ctx : Ctx) (inp1 : PubInp) (opts : PubOpts) :
    Except YonErr (BusMsg × BusState) :=
  match inp1 with
  | .busMsg m => .ok (m, st)
  | .val v => makeMsg st ctx v opts

/-- One evaluation step of ServerBus.pub (source lines 646-690), with the
recursive republication abstracted as `pubFn`: the wrapper unwrap,
envelope construction unless one was passed verbatim, the always-passing
`_check_norpc_mbody` on the envelope, the linked-waiter registration
failing with AlreadyProcessedErr on a sid collision, then the cache write
and the send order. -/
def pubStep (env : SubEnv) (pubFn : PubFnT) (st : BusState) (ctx : Ctx)
    (inp : PubInp) (opts : PubOpts) : PubRet :=
  match mkEnvelope st ctx (unwrapOnce inp) opts with
  | .error e => (.error e, st, [])
  | .ok (msg, st1) =>
    match checkNorpcMsg msg with
    | .error e => (.error e, st1, [])
    | .ok _ =>
      match opts.subfn with
      | some f =>
        if dcontains st1.lsidToSubfn msg.sid then
          (.error .alreadyProcessedErr, st1, [])
        else
          pubFinish env pubFn
            { st1 with lsidToSubfn := dset st1.lsidToSubfn msg.sid f }
            ctx msg opts
      | none => pubFinish env pubFn st1 ctx msg opts

/-- ServerBus.pub with a recursion budget: the real recursion (subscriber
retvals republished through `pub`) is unbounded only through the event
loop, and at budget 0 a nested publication is embedded as a no-op. -/
def pub (env : SubEnv) : Nat → BusState → Ctx → PubInp → PubOpts → PubRet
  | 0, st, _, _, _ => (.ok (), st, [])
  | fuel + 1, st, ctx, inp, opts => pubStep env (pub env fuel) st ctx inp opts

/-- ServerBus._try_del_subfn (source lines 803-807). No call site exists
anywhere in the source: no bus operation invokes it. -/
def tryDelSubfn (st : BusState) (lsid : String) : Bool × BusState :=
  if dcontains st.lsidToSubfn lsid then
    (true, { st with lsidToSubfn := derase st.lsidToSubfn lsid })
  else (false, st)

/-- Deliveries made to the pubr wrapper subfn during a pub call: the bodies
of the waiter invocations of that subfn id, in order. Each call of the
wrapper overwrites `ptr.target`, so once the event is set the pointer holds
the most recent delivered body. -/
def wrapperDeliveries (evs : List Ev) (wid : SubFnId) : List Mbody :=
  evs.filterMap fun ev =>
    match ev with
    | .waiterCall f _ b => if f = wid then some b else none
    | _ => none

/-- Result of the embedded `pubr`: either the call never returns (waiting
on an event nobody will set), or an Err or Ok result value. -/
inductive PubrRes where
  | hang
  | errRes (e : YonErr)
  | okRes (b : Mbody)
deriving DecidableEq, Repr

/-- ServerBus.pubr (source lines 599-635): override `opts.subfn` with the
aevt/ptr wrapper (id `wid`, behaviour: return None), call `pub`, propagate
a pub Err, then wait on the event. With no concurrently scheduled
publisher, every delivery to the wrapper happens inside the pub call
itself: no delivery with no timeout hangs; no delivery with a timeout set
returns the TimeoutError as Err; otherwise `ptr.target` is the last
delivered body, returned as Err when it is an Exception instance and as Ok
otherwise. -/
def pubrModel (env : SubEnv) (fuel : Nat) (st : BusState) (ctx : Ctx)
    (inp : PubInp) (opts : PubOpts) (wid : SubFnId) (timeout : Option Nat) :
    PubrRes :=
  let opts1 := { opts with subfn := some wid }
  let r := pub env fuel st ctx inp opts1
  match r.1 with
  | .error e => .errRes e
  | .ok _ =>
    match (wrapperDeliveries r.2.2 wid).getLast? with
    | none =>
      match timeout with
      | none => .hang
      | some _ => .errRes .timeoutErr
    | some b => if b.isExc then .errRes (.excErr b) else .okRes b

/-- An asyncio.Queue with its configured maxsize (a maxsize less than or
equal to zero means unbounded); items are (connsid, rmsg) pairs with the
wire dict abbreviated to a numeric id. -/
structure PQueue where
  items : List (String × Nat) := []
  maxsize : Int := 0
deriving DecidableEq, Repr

/-- asyncio.Queue.full(): true when maxsize is positive and the size has
reached it. -/
def qfull (q : PQueue) : Bool :=
  decide (0 < q.maxsize) && decide ((q.items.length : Int) ≥ q.maxsize)

/-- Outcome of asyncio.Queue.put_nowait: the grown queue, or the QueueFull
exception. -/
inductive NowaitRes where
  | enq (q : PQueue)
  | queueFullRaised
deriving DecidableEq, Repr

/-- asyncio.Queue.put_nowait: raises QueueFull when the queue is full,
else appends the item. -/
def putNowait (q : PQueue) (x : String × Nat) : NowaitRes :=
  if qfull q then .queueFullRaised else .enq { q with items := q.items ++ [x] }

/-- Outcome of an awaited asyncio.Queue.put: the grown queue, or the
caller suspended until a consumer frees a slot. -/
inductive BlockRes where
  | enq (q : PQueue)
  | blocked
deriving DecidableEq, Repr

/-- asyncio.Queue.put (awaited): suspends the caller while the queue is
full, else appends the item. -/
def putBlocking (q : PQueue) (x : String × Nat) : BlockRes :=
  if qfull q then .blocked else .enq { q with items := q.items ++ [x] }

/-- ServerBus._read_ws (source lines 960-963), one inbound rmsg: a
put_nowait onto the transport inbound queue; a QueueFull propagates out of
the read loop (terminating it through the exception handling of `conn`). -/
def readWsStep (inpQueue : PQueue) (connsid : String) (rmsg : Nat) :
    NowaitRes :=
  putNowait inpQueue (connsid, rmsg)

/-- Connection and transport tables as `_pub_rmsg_to_net` consults them:
connsid to the conn's type, and conn type to the transport's outbound
queue. -/
structure NetSt where
  sidToConnType : List (String × String) := []
  atransports : List (String × PQueue) := []
deriving DecidableEq, Repr

/-- Outcome of `_pub_rmsg_to_net`: the loop ran to completion, or it is
suspended on the awaited put of a full outbound queue at some target. -/
inductive NetPubRes where
  | done (st : NetSt)
  | blockedAt (connsid : String) (st : NetSt)
deriving DecidableEq, Repr

/-- ServerBus._pub_rmsg_to_net (source lines 780-794): per target connsid,
a missing conn or a missing transport is skipped with a log line;
otherwise the rmsg is put on the transport outbound queue with an awaited
put, which suspends the loop while that queue is full. -/
def pubRmsgToNet (st : NetSt) (rmsg : Nat) : List String → NetPubRes
  | [] => .done st
  | c :: rest =>
    match dget st.sidToConnType c with
    | none => pubRmsgToNet st rmsg rest
    | some ctype =>
      match dget st.atransports ctype with
      | none => pubRmsgToNet st rmsg rest
      | some q =>
        match putBlocking q (c, rmsg) with
        | .blocked => .blockedAt c st
        | .enq q1 =>
          pubRmsgToNet { st with atransports := dset st.atransports ctype q1 }
            rmsg rest

/-- Events of one `ServerBus.conn` call. -/
inductive ConnEv where
  | logNoTransport
  | closeConn
  | logDupSid
  | insertConn (sid : String)
  | sendWelcome
  | sendRaised
  | readLoop
  | closeInFinally
  | removeEntry (sid : String)
deriving DecidableEq, Repr

/-- A connection as `conn` sees it: its sid, the key of its type in the
active-transport table, and its closed flag. -/
structure ConnObj where
  sid : String
  ctype : String
  closed : Bool := false
deriving DecidableEq, Repr

/-- The connection table and the keys of the active-transport table. -/
structure ConnTableSt where
  sidToConn : List (String × ConnObj) := []
  transports : List String := []
deriving DecidableEq, Repr

/-- ServerBus.conn (source lines 475-507). When the conn's type has no
active transport the error is logged and the conn closed, but the code
falls through (the None is only cast): a duplicate sid still returns, the
conn is inserted, the welcome send attempted, and the finally block closes
the conn when needed and deletes the table entry. The concrete Ws conn is
absent from src; modelled from the spec (§4.5: an exception during the
main loop is logged and absorbed, every exit path closes and removes the
connection): a send on an already-closed connection raises, and the read
loop of an open connection runs until the connection ends. -/
def connFn (st : ConnTableSt) (c : ConnObj) : ConnTableSt × List ConnEv :=
  let noTransport : Bool := !(st.transports.contains c.ctype)
  let c1 := if noTransport then { c with closed := true } else c
  let evs1 :=
    if noTransport then [ConnEv.logNoTransport, ConnEv.closeConn] else []
  if dcontains st.sidToConn c1.sid then (st, evs1 ++ [ConnEv.logDupSid])
  else
    let st1 := { st with sidToConn := dset st.sidToConn c1.sid c1 }
    let evs2 :=
      if c1.closed then [ConnEv.insertConn c1.sid, ConnEv.sendWelcome, ConnEv.sendRaised]
      else [ConnEv.insertConn c1.sid, ConnEv.sendWelcome, ConnEv.readLoop]
    let evs3 := if c1.closed then [] else [ConnEv.closeInFinally]
    let st2 := { st1 with sidToConn := derase st1.sidToConn c1.sid }
    (st2, evs1 ++ evs2 ++ evs3 ++ [ConnEv.removeEntry c1.sid])

/-! Concrete scenarios used by the evaluation theorems, the
counterexamples and the witnesses. -/

/-- The empty ambient context. -/
def ctx0 : Ctx := {}

/-- Two subscriptions to the same code "c": the initial state. -/
def c1st0 : BusState := { regdCodes := ["c"] }

/-- State after sub of subfn 1 (subsid "s1") to code "c". -/
def c1st1 : BusState := (subModel c1st0 "s1" 1 "c" false).2.1

/-- State after the second sub, subfn 2 (subsid "s2") to code "c". -/
def c1st2 : BusState := (subModel c1st1 "s2" 2 "c" false).2.1

/-- State after unsub of "s1". -/
def c1st3 : BusState := (unsubModel c1st2 "s1").2

/-- A cached last body for code "c". -/
def cachedBody : Mbody := { code := "c", val := 41 }

/-- Replay scenario: code "c" registered and a last body cached for it. -/
def c4st0 : BusState :=
  { regdCodes := ["c"], codeToLastMbody := [("c", cachedBody)] }

/-- A full bounded queue (maxsize 1, one item). -/
def fullQ : PQueue := { items := [("c0", 0)], maxsize := 1 }

/-- Net state for the outbound-overflow scenario: conn "c1" of type "ws"
whose transport outbound queue is full. -/
def netStFull : NetSt :=
  { sidToConnType := [("c1", "ws")], atransports := [("ws", fullQ)] }

/-- Reply body published by subscriber 1 in the pubr scenario. -/
def mbA : Mbody := { code := "d", val := 1 }

/-- Error reply body (an Exception instance) published by subscriber 2. -/
def mbE : Mbody := { code := "d", isExc := true, val := 2 }

/-- The body handed to pubr. -/
def mbC : Mbody := { code := "c", val := 0 }

/-- Subscriber behaviours of the pubr scenario: subfns 1 and 2 reply with
mbA and mbE; every other id (the wrapper included) returns None. -/
def env5 : SubEnv := fun f _ =>
  if f = 1 then .body mbA else if f = 2 then .body mbE else .pyNone

/-- Bus state of the pubr scenario: subfns 1 and 2 subscribed to "c". -/
def st5 : BusState :=
  { codeToSubfns := [("c", [1, 2])], regdCodes := ["c", "d", "yon::ok"] }

/-- The opts pubr hands to pub in the scenario (wrapper id 0 installed). -/
def opts5 : PubOpts := { subfn := some 0 }

/-- Subscriber behaviours for the send-order scenario (none are called). -/
def env6 : SubEnv := fun _ _ => .pyNone

/-- Send-order counterexample state: no subscription for any code. -/
def st6 : BusState := { regdCodes := ["c"] }

/-- Send-order counterexample envelope: no targets, no lsid. -/
def m6 : BusMsg := { sid := "m1", bodycode := "c", body := mbC }

/-- Send-order counterexample opts: send_to_inner set, send_to_net not. -/
def opts6 : PubOpts := { send_to_inner := true, send_to_net := false }

/-- Send-order witness state: subfn 4 subscribed to "c" and waiter 9
registered under "L1". -/
def st6b : BusState :=
  { regdCodes := ["c"], codeToSubfns := [("c", [4])],
    lsidToSubfn := [("L1", 9)] }

/-- Send-order witness envelope: code "c", linked to "L1". -/
def m6b : BusMsg :=
  { sid := "m1", lsid := some "L1", bodycode := "c", body := mbC }

/-- The sid tag of a send-order step marker, `none` for every other
event. -/
def markerSid : Ev → Option String
  | .stepNet s => some s
  | .stepInner s => some s
  | .stepLinked s => some s
  | _ => none

/-- The sid tags of the step markers of an event list. -/
def markerSids (evs : List Ev) : List String :=
  evs.filterMap markerSid

/-- The step markers of an event list carrying a given sid tag, in order:
the send-order trace of the publication of the envelope with that sid. -/
def stepMarkersOf (evs : List Ev) (s : String) : List Ev :=
  evs.filter fun ev => decide (markerSid ev = some s)

/-- Every step marker of the event list is tagged with a generated sid. -/
def SidOfOnly (evs : List Ev) : Prop :=
  ∀ s ∈ markerSids evs, ∃ n, s = sidOf n

/-- A recursive publication entry point whose state result never touches
the linked-waiter table when called without `opts.subfn` (the only way the
helpers call it). -/
def LsidInv (pubFn : PubFnT) : Prop :=
  ∀ st ctx inp opts, opts.subfn = none →
    ((pubFn st ctx inp opts).2.1).lsidToSubfn = st.lsidToSubfn

/-- A recursive publication entry point whose events carry step markers
only for freshly generated sids (true of `pub` on dynamic values). -/
def ValMarkers (pubFn : PubFnT) : Prop :=
  ∀ st ctx v opts, SidOfOnly (pubFn st ctx (.val v) opts).2.2

/-- Collision-scenario state: a waiter (subfn 3) already registered under
the sid "x". -/
def st7 : BusState := { lsidToSubfn := [("x", 3)], regdCodes := ["c"] }

/-- Collision-scenario envelope: its sid "x" collides with the waiter. -/
def m7 : BusMsg := { sid := "x", bodycode := "c", body := mbC }

/-- Collision-scenario opts: a waiter subfn is attached to the pub. -/
def opts7 : PubOpts := { subfn := some 3 }

/-- Delivery-scenario state: waiter 9 registered under lsid "L1". -/
def stW : BusState := { lsidToSubfn := [("L1", 9)], regdCodes := ["c"] }

/-- Delivery-scenario envelope: a message linked to "L1". -/
def mW : BusMsg := { sid := "m1", lsid := some "L1", bodycode := "c", body := mbC }

/-- Quiet state for the pubr timeout witness: code "c" registered, no
subscribers and no waiters, so a pubr publication gets no reply. -/
def stQuiet : BusState := { regdCodes := ["c"] }

/-- Context with an msid, for the lsid-resolution witness. -/
def ctx8 : Ctx := { msid := some "m7" }

/-- A connection whose type has no active transport. -/
def cX : ConnObj := { sid := "cs1", ctype := "udp" }

/-- Connection-table state with only a "ws" transport registered. -/
def stX : ConnTableSt := { sidToConn := [], transports := ["ws"] }

/-! Theorems. Shared helper lemmas about the dictionary embedding come
first, then the per-claim results. -/

theorem dget_dset {V : Type} (d : List (String × V)) (k k1 : String) (v : V) :
    dget (dset d k v) k1 = if k = k1 then some v else dget d k1 := by
  induction d with
  | nil => simp [dget, dset]
  | cons hd tl ih =>
    obtain ⟨k2, v2⟩ := hd
    by_cases h2 : k2 = k
    · subst h2
      by_cases h1 : k2 = k1 <;> simp [dget, dset, h1]
    · by_cases h1 : k2 = k1
      · subst h1
        have : ¬ k = k2 := fun hh => h2 hh.symm
        simp [dget, dset, h2, this]
      · simp [dget, dset, h2, h1, ih]

theorem dcontains_iff_mem {V : Type} (d : List (String × V)) (k : String) :
    dcontains d k = true ↔ k ∈ d.map Prod.fst := by
  induction d with
  | nil => simp [dcontains, dget]
  | cons hd tl ih =>
    obtain ⟨k1, v1⟩ := hd
    by_cases h : k1 = k
    · subst h; simp [dcontains, dget]
    · simp only [dcontains, dget, if_neg h, List.map_cons, List.mem_cons]
      rw [dcontains] at ih
      rw [ih]
      constructor
      · exact fun hh => Or.inr hh
      · rintro (hh | hh)
        · exact absurd hh.symm h
        · exact hh

theorem map_fst_dset {V : Type} (d : List (String × V)) (k : String) (v : V) :
    (dset d k v).map Prod.fst =
      if dcontains d k then d.map Prod.fst else d.map Prod.fst ++ [k] := by
  induction d with
  | nil => simp [dset, dcontains, dget]
  | cons hd tl ih =>
    obtain ⟨k1, v1⟩ := hd
    by_cases h : k1 = k
    · subst h; simp [dset, dcontains, dget]
    · have hcd : dcontains ((k1, v1) :: tl) k = dcontains tl k := by
        simp [dcontains, dget, h]
      by_cases hc : dcontains tl k <;>
        simp [dset, h, hcd, hc, ih]

theorem keysUnique_dset {V : Type} (d : List (String × V)) (k : String)
    (v : V) (h : KeysUnique d) : KeysUnique (dset d k v) := by
  unfold KeysUnique at *
  rw [map_fst_dset]
  by_cases hc : dcontains d k
  · simp [hc, h]
  · simp only [hc, if_false, Bool.false_eq_true]
    have hk : k ∉ d.map Prod.fst := fun hm => hc ((dcontains_iff_mem d k).mpr hm)
    simp only [List.nodup_append, List.nodup_cons, List.nodup_nil]
    refine ⟨h, by simp, ?_⟩
    intro a ha hb
    simp only [List.mem_singleton] at hb
    exact hk (hb ▸ ha)

theorem derase_dset_of_not_contains {V : Type} (d : List (String × V))
    (k : String) (v : V) (h : dcontains d k = false) :
    derase (dset d k v) k = d := by
  induction d with
  | nil => simp [dset, derase]
  | cons hd tl ih =>
    obtain ⟨k1, v1⟩ := hd
    by_cases h1 : k1 = k
    · subst h1
      simp [dcontains, dget] at h
    · have h2 : dcontains tl k = false := by
        simpa [dcontains, dget, h1] using h
      simp [dset, derase, h1, ih h2]

theorem makeMsg_ok_state (st : BusState) (ctx : Ctx) (v : SubRet)
    (opts : PubOpts) (m : BusMsg) (st1 : BusState)
    (h : makeMsg st ctx v opts = .ok (m, st1)) :
    st1 = { st with nextSid := st.nextSid + 1 } ∧ m.sid = sidOf st.nextSid := by
  cases v with
  | body b =>
    simp only [makeMsg, codeOfVal] at h
    by_cases hc : b.code ∈ st.regdCodes
    · rw [if_pos hc] at h
      cases hu : unpackLsid ctx opts.lsid with
      | error e => rw [hu] at h; exact absurd h (by simp)
      | ok lsid =>
        rw [hu] at h
        simp only [Except.ok.injEq, Prod.mk.injEq] at h
        obtain ⟨hm, hst⟩ := h
        subst hm
        subst hst
        exact ⟨rfl, rfl⟩
    · rw [if_neg hc] at h; exact absurd h (by simp)
  | rOk v0 => simp [makeMsg, codeOfVal] at h
  | rErr v0 => simp [makeMsg, codeOfVal] at h
  | skipMe => simp [makeMsg, codeOfVal] at h
  | interrupt b0 => simp [makeMsg, codeOfVal] at h
  | cls => simp [makeMsg, codeOfVal] at h
  | pubList xs => simp [makeMsg, codeOfVal] at h
  | pyNone => simp [makeMsg, codeOfVal] at h

theorem mkEnvelope_ok_state (st : BusState) (ctx : Ctx) (inp1 : PubInp)
    (opts : PubOpts) (msg : BusMsg) (st1 : BusState)
    (h : mkEnvelope st ctx inp1 opts = .ok (msg, st1)) :
    st1.lsidToSubfn = st.lsidToSubfn ∧ st1.codeToSubfns = st.codeToSubfns := by
  cases inp1 with
  | busMsg m =>
    simp only [mkEnvelope, Except.ok.injEq, Prod.mk.injEq] at h
    rw [← h.2]
    exact ⟨rfl, rfl⟩
  | val v =>
    simp only [mkEnvelope] at h
    obtain ⟨heq, -⟩ := makeMsg_ok_state st ctx v opts msg st1 h
    rw [heq]
    exact ⟨rfl, rfl⟩

theorem pubValsLoop_lsid (pubFn : PubFnT) (h : LsidInv pubFn) (ctx : Ctx)
    (opts : PubOpts) (hopts : opts.subfn = none) :
    ∀ (vals : List SubRet) (st : BusState),
      ((pubValsLoop pubFn ctx opts st vals).1).lsidToSubfn = st.lsidToSubfn := by
  intro vals
  induction vals with
  | nil => intro st; rfl
  | cons v rest ih =>
    intro st
    simp only [pubValsLoop]
    rw [ih]
    exact h st ctx _ opts hopts

theorem callSubfn_lsid (env : SubEnv) (pubFn : PubFnT) (h : LsidInv pubFn)
    (st : BusState) (ctx : Ctx) (f : SubFnId) (msg : BusMsg) :
    ((callSubfn env pubFn st ctx f msg).1).lsidToSubfn = st.lsidToSubfn := by
  unfold callSubfn
  by_cases he : ((parseSubfnRetval (env f msg.body)).1).isEmpty = true
  · simp [he]
  · simp only [he, if_false, Bool.false_eq_true]
    exact pubValsLoop_lsid pubFn h _ _ rfl _ st

theorem callSubfnList_lsid (env : SubEnv) (pubFn : PubFnT) (h : LsidInv pubFn)
    (ctx : Ctx) (msg : BusMsg) :
    ∀ (fs : List SubFnId) (st : BusState),
      ((callSubfnList env pubFn ctx msg st fs).1).lsidToSubfn = st.lsidToSubfn := by
  intro fs
  induction fs with
  | nil => intro st; rfl
  | cons f rest ih =>
    intro st
    simp only [callSubfnList]
    rw [ih]
    exact callSubfn_lsid env pubFn h st ctx f msg

theorem sendToInnerBus_lsid (env : SubEnv) (pubFn : PubFnT) (h : LsidInv pubFn)
    (st : BusState) (ctx : Ctx) (msg : BusMsg) :
    ((sendToInnerBus env pubFn st ctx msg).1).lsidToSubfn = st.lsidToSubfn := by
  unfold sendToInnerBus
  exact callSubfnList_lsid env pubFn h ctx msg _ st

theorem sendAsLinked_lsid (env : SubEnv) (pubFn : PubFnT) (h : LsidInv pubFn)
    (st : BusState) (ctx : Ctx) (msg : BusMsg) :
    ((sendAsLinked env pubFn st ctx msg).1).lsidToSubfn = st.lsidToSubfn := by
  unfold sendAsLinked
  cases hml : msg.lsid with
  | none => rfl
  | some l =>
    by_cases hl : l = ""
    · simp [hl]
    · simp only [hl, if_false, Bool.false_eq_true]
      cases hd : dget st.lsidToSubfn l with
      | none => rfl
      | some f => exact callSubfn_lsid env pubFn h st ctx f msg

theorem execPubSendOrder_lsid (env : SubEnv) (pubFn : PubFnT)
    (h : LsidInv pubFn) (st : BusState) (ctx : Ctx) (msg : BusMsg)
    (opts : PubOpts) :
    ((execPubSendOrder env pubFn st ctx msg opts).1).lsidToSubfn
      = st.lsidToSubfn := by
  unfold execPubSendOrder
  by_cases h2 : (opts.send_to_inner && dcontains st.codeToSubfns msg.bodycode) = true <;>
    by_cases h3 : lsidTruthy msg.lsid = true <;>
      simp [h2, h3, sendAsLinked_lsid env pubFn h,
        sendToInnerBus_lsid env pubFn h]

theorem pubFinish_lsid (env : SubEnv) (pubFn : PubFnT) (h : LsidInv pubFn)
    (st : BusState) (ctx : Ctx) (msg : BusMsg) (opts : PubOpts) :
    ((pubFinish env pubFn st ctx msg opts).2.1).lsidToSubfn
      = st.lsidToSubfn := by
  unfold pubFinish
  exact execPubSendOrder_lsid env pubFn h _ ctx msg opts

theorem pub_lsid_none (env : SubEnv) : ∀ fuel, LsidInv (pub env fuel) := by
  intro fuel
  induction fuel with
  | zero => intro st ctx inp opts hopts; rfl
  | succ n ih =>
    intro st ctx inp opts hopts
    show ((pubStep env (pub env n) st ctx inp opts).2.1).lsidToSubfn
      = st.lsidToSubfn
    unfold pubStep
    cases hmk : mkEnvelope st ctx (unwrapOnce inp) opts with
    | error e => simp
    | ok p =>
      obtain ⟨msg, st1⟩ := p
      obtain ⟨hL, -⟩ := mkEnvelope_ok_state st ctx _ opts msg st1 hmk
      simp only [checkNorpcMsg, hopts]
      rw [pubFinish_lsid env (pub env n) ih st1 ctx msg opts]
      exact hL

theorem pub_lsid_shape (env : SubEnv) (fuel : Nat) (st : BusState) (ctx : Ctx)
    (inp : PubInp) (opts : PubOpts) :
    ((pub env fuel st ctx inp opts).2.1).lsidToSubfn = st.lsidToSubfn
    ∨ ∃ s f, opts.subfn = some f ∧ dcontains st.lsidToSubfn s = false
        ∧ ((pub env fuel st ctx inp opts).2.1).lsidToSubfn
            = dset st.lsidToSubfn s f := by
  cases fuel with
  | zero => left; rfl
  | succ n =>
    show ((pubStep env (pub env n) st ctx inp opts).2.1).lsidToSubfn = _ ∨ _
    unfold pubStep
    cases hmk : mkEnvelope st ctx (unwrapOnce inp) opts with
    | error e => left; simp
    | ok p =>
      obtain ⟨msg, st1⟩ := p
      obtain ⟨hL, -⟩ := mkEnvelope_ok_state st ctx _ opts msg st1 hmk
      simp only [checkNorpcMsg]
      cases hsub : opts.subfn with
      | none =>
        left
        rw [pubFinish_lsid env (pub env n) (pub_lsid_none env n) st1 ctx msg opts]
        exact hL
      | some f =>
        by_cases hcol : dcontains st1.lsidToSubfn msg.sid = true
        · left; simp [hcol]; exact hL
        · right
          refine ⟨msg.sid, f, rfl, ?_, ?_⟩
          · rw [hL] at hcol
            simpa using hcol
          · have hstep : pub env (n + 1) st ctx inp opts
                = pubFinish env (pub env n)
                    { st1 with lsidToSubfn := dset st1.lsidToSubfn msg.sid f }
                    ctx msg opts := by
              show pubStep env (pub env n) st ctx inp opts = _
              unfold pubStep
              rw [hmk]
              simp [checkNorpcMsg, hsub, hcol]
            rw [hstep]
            rw [pubFinish_lsid env (pub env n) (pub_lsid_none env n) _ ctx msg opts]
            show dset st1.lsidToSubfn msg.sid f = dset st.lsidToSubfn msg.sid f
            rw [hL]

theorem pub_lsid_mono (env : SubEnv) (fuel : Nat) (st : BusState) (ctx : Ctx)
    (inp : PubInp) (opts : PubOpts) (k : String) (v : SubFnId)
    (h : dget st.lsidToSubfn k = some v) :
    dget ((pub env fuel st ctx inp opts).2.1).lsidToSubfn k = some v := by
  rcases pub_lsid_shape env fuel st ctx inp opts with hs | ⟨s, f, -, hfree, hs⟩
  · rw [hs]; exact h
  · rw [hs, dget_dset]
    by_cases hk : s = k
    · subst hk
      rw [dcontains, h] at hfree
      simp at hfree
    · simp [hk, h]

theorem pub_keysUnique (env : SubEnv) (fuel : Nat) (st : BusState) (ctx : Ctx)
    (inp : PubInp) (opts : PubOpts) (h : KeysUnique st.lsidToSubfn) :
    KeysUnique ((pub env fuel st ctx inp opts).2.1).lsidToSubfn := by
  rcases pub_lsid_shape env fuel st ctx inp opts with hs | ⟨s, f, -, -, hs⟩
  · rw [hs]; exact h
  · rw [hs]; exact keysUnique_dset _ _ _ h

theorem pub_collision (env : SubEnv) (fuel : Nat) (st : BusState) (ctx : Ctx)
    (m : BusMsg) (opts : PubOpts) (g : SubFnId)
    (hg : opts.subfn = some g) (hc : dcontains st.lsidToSubfn m.sid = true) :
    pub env (fuel + 1) st ctx (.busMsg m) opts
      = (.error .alreadyProcessedErr, st, []) := by
  show pubStep env (pub env fuel) st ctx (.busMsg m) opts = _
  simp [pubStep, mkEnvelope, unwrapOnce, checkNorpcMsg, hg, hc]

theorem sendAsLinked_delivers (env : SubEnv) (pubFn : PubFnT)
    (h : LsidInv pubFn) (st : BusState) (ctx : Ctx) (msg : BusMsg)
    (L : String) (f : SubFnId) (hl : msg.lsid = some L) (hL : ¬ L = "")
    (hf : dget st.lsidToSubfn L = some f) :
    (sendAsLinked env pubFn st ctx msg).2
      = Ev.waiterCall f L msg.body :: (callSubfn env pubFn st ctx f msg).2.1
    ∧ ((sendAsLinked env pubFn st ctx msg).1).lsidToSubfn
        = st.lsidToSubfn := by
  unfold sendAsLinked
  simp only [hl]
  rw [if_neg hL, hf]
  exact ⟨rfl, callSubfn_lsid env pubFn h st ctx f msg⟩

theorem exec_linked_delivery (env : SubEnv) (pubFn : PubFnT)
    (h : LsidInv pubFn) (st : BusState) (ctx : Ctx) (msg : BusMsg)
    (opts : PubOpts) (L : String) (f : SubFnId)
    (hl : msg.lsid = some L) (hL : ¬ L = "")
    (hf : dget st.lsidToSubfn L = some f) :
    Ev.waiterCall f L msg.body ∈ (execPubSendOrder env pubFn st ctx msg opts).2
    ∧ dget ((execPubSendOrder env pubFn st ctx msg opts).1).lsidToSubfn L
        = some f := by
  have htr : lsidTruthy msg.lsid = true := by
    rw [hl]; simp [lsidTruthy, hL]
  unfold execPubSendOrder
  dsimp only
  by_cases hb : (opts.send_to_inner && dcontains st.codeToSubfns msg.bodycode) = true
  · have hr2 : ((sendToInnerBus env pubFn st ctx msg).1).lsidToSubfn
        = st.lsidToSubfn := sendToInnerBus_lsid env pubFn h st ctx msg
    have hf2 : dget ((sendToInnerBus env pubFn st ctx msg).1).lsidToSubfn L
        = some f := by rw [hr2]; exact hf
    obtain ⟨he, hs⟩ :=
      sendAsLinked_delivers env pubFn h _ ctx msg L f hl hL hf2
    rw [if_pos hb, if_pos htr]
    constructor
    · simp [he, List.mem_append]
    · simp [hs, hf2]
  · obtain ⟨he, hs⟩ :=
      sendAsLinked_delivers env pubFn h st ctx msg L f hl hL hf
    rw [if_neg hb, if_pos htr]
    constructor
    · simp [he, List.mem_append]
    · simp [hs, hf]

theorem pub_delivery (env : SubEnv) (fuel : Nat) (st : BusState) (ctx : Ctx)
    (m : BusMsg) (opts : PubOpts) (L : String) (f : SubFnId)
    (hl : m.lsid = some L) (hL : ¬ L = "") (hsub : opts.subfn = none)
    (hf : dget st.lsidToSubfn L = some f) :
    Ev.waiterCall f L m.body ∈ (pub env (fuel + 1) st ctx (.busMsg m) opts).2.2
    ∧ dget ((pub env (fuel + 1) st ctx (.busMsg m) opts).2.1).lsidToSubfn L
        = some f := by
  have hps : pub env (fuel + 1) st ctx (.busMsg m) opts
      = pubFinish env (pub env fuel) st ctx m opts := by
    show pubStep env (pub env fuel) st ctx (.busMsg m) opts = _
    simp [pubStep, mkEnvelope, unwrapOnce, checkNorpcMsg, hsub]
  rw [hps]
  unfold pubFinish
  exact exec_linked_delivery env (pub env fuel) (pub_lsid_none env fuel) _ ctx
    m opts L f hl hL hf

/-- C1. Evaluation of the code at the failing input: with subfns 1 and 2
both subscribed to code "c" (subsids "s1" and "s2") the tables are
consistent, and `unsub("s1")` returns Ok; but it deletes the whole
code-to-subfns entry of "c", so "s2" is left in the two subsid tables with
its subfn gone from `_code_to_subfns` — the triad invariant fails for the
remaining subscriber, and a later `unsub("s2")` trips the source's own
"all maps must be synced" assertion. An unsub of an absent subsid is a
non-fatal Err, as claimed. -/
theorem C1_sub_tables_eval :
    (subModel c1st0 "s1" 1 "c" false).1 = .okRes "s1"
    ∧ (subModel c1st1 "s2" 2 "c" false).1 = .okRes "s2"
    ∧ subTablesConsistent c1st2 = true
    ∧ (unsubModel c1st2 "s1").1 = .okRes
    ∧ subTablesConsistent c1st3 = false
    ∧ dget c1st3.subsidToCode "s2" = some "c"
    ∧ dget c1st3.subsidToSubfn "s2" = some 2
    ∧ dget c1st3.codeToSubfns "c" = none
    ∧ (unsubModel c1st3 "s2").1 = .raised .assertionError
    ∧ (unsubModel c1st0 "zz").1 = .errRes (.valErr "sub not found") := by
  decide

/-- C4. Evaluation of the code at the failing input: with a last body
cached for code "c", a sub with `recv_last_msg` hands the plain cached
body to `_call_subfn`, which reads `msg.sid` from it and raises
AttributeError — the subfn is never invoked with the cached body and `sub`
raises instead of returning. Without a cached body the sub returns Ok and
no replay invocation happens, as the claim says. -/
theorem C4_replay_eval :
    (subModel c4st0 "s1" 7 "c" true).1 = .raised (.attributeError "sid")
    ∧ (subModel c4st0 "s1" 7 "c" true).2.2 = []
    ∧ (subModel { c4st0 with codeToLastMbody := [] } "s1" 7 "c" true).1
        = .okRes "s1"
    ∧ (subModel { c4st0 with codeToLastMbody := [] } "s1" 7 "c" true).2.2
        = [] := by
  decide

/-- C2. Counterexample to the claimed overflow policy at a concrete full
queue: the claim requires the inbound put not to drop or raise (blocking
backpressure) and the outbound put not to block (non-blocking drop); in
the code the inbound `put_nowait` raises QueueFull and the outbound
awaited put suspends on the full queue. -/
theorem C2_counterexample :
    ¬ (readWsStep fullQ "c1" 5 ≠ NowaitRes.queueFullRaised
       ∧ pubRmsgToNet netStFull 5 ["c1"] ≠ NetPubRes.blockedAt "c1" netStFull) := by
  decide

/-- C5. Counterexample to "pubr returns ok of the first delivered reply
body": with two subscribers replying mbA then mbE to the published
message, both replies are delivered to the wrapper inside the pub call,
the first delivered body mbA is not an error value, yet pubr returns Err
of the last delivered body mbE, because every wrapper call overwrites
`ptr.target`. -/
theorem C5_counterexample :
    (wrapperDeliveries (pub env5 6 st5 ctx0 (.val (.body mbC)) opts5).2.2 0).head?
        = some mbA
    ∧ mbA.isExc = false
    ∧ pubrModel env5 6 st5 ctx0 (.val (.body mbC)) {} 0 (some 5)
        = .errRes (.excErr mbE)
    ∧ PubrRes.errRes (.excErr mbE) ≠ PubrRes.okRes mbA := by
  decide

/-- C6. Counterexample to "step (b) runs iff opts.send_to_inner is true":
with `send_to_inner` set but no entry for the envelope's code in
`_code_to_subfns`, the inner step is not entered. -/
theorem C6_counterexample :
    opts6.send_to_inner = true
    ∧ ¬ (Ev.stepInner "m1" ∈ (pub env6 3 st6 ctx0 (.busMsg m6) opts6).2.2
          ↔ opts6.send_to_inner = true) := by
  decide

theorem subModel_lsid (st : BusState) (subsid : String) (f : SubFnId)
    (code : String) (rl : Bool) :
    ((subModel st subsid f code rl).2.1).lsidToSubfn = st.lsidToSubfn := by
  unfold subModel
  dsimp only
  repeat' split
  all_goals rfl

theorem unsubModel_lsid (st : BusState) (subsid : String) :
    ((unsubModel st subsid).2).lsidToSubfn = st.lsidToSubfn := by
  unfold unsubModel
  repeat' split
  all_goals rfl

/-- C3. Waiter persistence: (i) `pub` never removes a linked-waiter entry
(every registered pair survives any publication, including the recursive
republications); (ii) and (iii) `sub` and `unsub` never touch the waiter
table at all (`_try_del_subfn` has no call site); (iv) a pub carrying
`opts.subfn` whose envelope sid is already registered fails with
AlreadyProcessedErr forever; (v) a registered waiter is invoked for every
published message whose truthy lsid equals its key — for a second such
message just as for the first, since the entry survives the delivery. -/
theorem C3_waiter_persistence (env : SubEnv) (fuel : Nat) (st : BusState)
    (ctx : Ctx) (inp : PubInp) (opts : PubOpts) :
    (∀ k v, dget st.lsidToSubfn k = some v →
       dget ((pub env fuel st ctx inp opts).2.1).lsidToSubfn k = some v)
    ∧ (∀ subsid f code rl,
        ((subModel st subsid f code rl).2.1).lsidToSubfn = st.lsidToSubfn)
    ∧ (∀ subsid, ((unsubModel st subsid).2).lsidToSubfn = st.lsidToSubfn)
    ∧ (∀ m g, opts.subfn = some g → dcontains st.lsidToSubfn m.sid = true →
        pub env (fuel + 1) st ctx (.busMsg m) opts
          = (.error .alreadyProcessedErr, st, []))
    ∧ (∀ m m2 L f, m.lsid = some L → m2.lsid = some L → ¬ L = "" →
        opts.subfn = none → dget st.lsidToSubfn L = some f →
        Ev.waiterCall f L m.body
            ∈ (pub env (fuel + 1) st ctx (.busMsg m) opts).2.2
        ∧ Ev.waiterCall f L m2.body
            ∈ (pub env (fuel + 1)
                ((pub env (fuel + 1) st ctx (.busMsg m) opts).2.1)
                ctx (.busMsg m2) opts).2.2) := by
  refine ⟨fun k v h => pub_lsid_mono env fuel st ctx inp opts k v h,
    fun subsid f code rl => subModel_lsid st subsid f code rl,
    fun subsid => unsubModel_lsid st subsid,
    fun m g hg hc => pub_collision env fuel st ctx m opts g hg hc, ?_⟩
  intro m m2 L f hl hl2 hL hsub hf
  obtain ⟨h1, h2⟩ := pub_delivery env fuel st ctx m opts L f hl hL hsub hf
  exact ⟨h1, (pub_delivery env fuel _ ctx m2 opts L f hl2 hL hsub h2).1⟩

/-- C3 witness: with waiter 9 registered under lsid "L1", publishing an
envelope linked to "L1" twice in a row delivers the body to the waiter
both times. -/
theorem C3_waiter_persistence_witness :
    Ev.waiterCall 9 "L1" mW.body ∈ (pub env6 1 stW ctx0 (.busMsg mW) {}).2.2
    ∧ Ev.waiterCall 9 "L1" mW.body
        ∈ (pub env6 1 ((pub env6 1 stW ctx0 (.busMsg mW) {}).2.1)
            ctx0 (.busMsg mW) {}).2.2 :=
  (C3_waiter_persistence env6 0 stW ctx0 (.busMsg mW) {}).2.2.2.2 mW mW "L1" 9
    rfl rfl (by decide) rfl (by decide)

/-- C7. Waiter uniqueness: a pub whose `opts.subfn` is set fails with
AlreadyProcessedErr when a waiter is already registered under the
envelope's sid, leaving the whole state (the waiter table in particular)
unchanged; and the waiter table keeps at most one entry per lsid across
any publication. -/
theorem C7_waiter_uniqueness (env : SubEnv) (fuel : Nat) (st : BusState)
    (ctx : Ctx) (m : BusMsg) (inp : PubInp) (opts : PubOpts) (g : SubFnId) :
    (opts.subfn = some g → dcontains st.lsidToSubfn m.sid = true →
      pub env (fuel + 1) st ctx (.busMsg m) opts
        = (.error .alreadyProcessedErr, st, []))
    ∧ (KeysUnique st.lsidToSubfn →
        KeysUnique ((pub env fuel st ctx inp opts).2.1).lsidToSubfn) :=
  ⟨fun hg hc => pub_collision env fuel st ctx m opts g hg hc,
   fun h => pub_keysUnique env fuel st ctx inp opts h⟩

/-- C7 witness: a concrete colliding pub (waiter 3 already under sid "x")
returns AlreadyProcessedErr with the state unchanged, and key uniqueness
of the waiter table is preserved. -/
theorem C7_waiter_uniqueness_witness :
    pub env6 1 st7 ctx0 (.busMsg m7) opts7
      = (.error .alreadyProcessedErr, st7, [])
    ∧ KeysUnique ((pub env6 1 st7 ctx0 (.busMsg m7) opts7).2.1).lsidToSubfn :=
  ⟨(C7_waiter_uniqueness env6 0 st7 ctx0 m7 (.busMsg m7) opts7 3).1 rfl
      (by decide),
   (C7_waiter_uniqueness env6 1 st7 ctx0 m7 (.busMsg m7) opts7 3).2
      (by unfold KeysUnique; decide)⟩

/-- C8. Lsid resolution: "$ctx::msid" resolves to the ambient msid and is
an error when the context has none (or a falsy one); any other string
starting with "$" is a value error; any other value, None included, passes
through unchanged; and whenever `_make_msg` succeeds, the envelope's lsid
is exactly the resolution of `opts.lsid`. -/
theorem C8_lsid_resolution (ctx : Ctx) (s m1 : String) :
    (ctx.msid = some m1 → ¬ m1 = "" →
      unpackLsid ctx (some "$ctx::msid") = .ok (some m1))
    ∧ (ctx.msid = none →
      unpackLsid ctx (some "$ctx::msid") = .error (.notFoundErr "msid"))
    ∧ (ctx.msid = some "" →
      unpackLsid ctx (some "$ctx::msid") = .error (.notFoundErr "msid"))
    ∧ (¬ s = "$ctx::msid" → startsWithDollar s = true →
      unpackLsid ctx (some s)
        = .error (.valErr "unrecognized PubOpts.lsid operator"))
    ∧ (startsWithDollar s = false → unpackLsid ctx (some s) = .ok (some s))
    ∧ unpackLsid ctx none = .ok none
    ∧ (∀ st v opts m2 st2, makeMsg st ctx v opts = .ok (m2, st2) →
        unpackLsid ctx opts.lsid = .ok m2.lsid) := by
  refine ⟨?_, ?_, ?_, ?_, ?_, rfl, ?_⟩
  · intro h hne
    simp [unpackLsid, getCtxMsid, h, hne]
  · intro h
    simp [unpackLsid, getCtxMsid, h]
  · intro h
    simp [unpackLsid, getCtxMsid, h]
  · intro hne hsw
    simp [unpackLsid, hne, hsw]
  · intro hsw
    have hne : ¬ s = "$ctx::msid" := by
      intro he
      rw [he] at hsw
      exact absurd hsw (by decide)
    simp [unpackLsid, hne, hsw]
  · intro st v opts m2 st2 h
    cases v with
    | body b =>
      simp only [makeMsg, codeOfVal] at h
      by_cases hc : b.code ∈ st.regdCodes
      · rw [if_pos hc] at h
        cases hu : unpackLsid ctx opts.lsid with
        | error e => rw [hu] at h; exact absurd h (by simp)
        | ok lsid =>
          rw [hu] at h
          simp only [Except.ok.injEq, Prod.mk.injEq] at h
          obtain ⟨hm, -⟩ := h
          rw [← hm]
      · rw [if_neg hc] at h; exact absurd h (by simp)
    | rOk v0 => simp [makeMsg, codeOfVal] at h
    | rErr v0 => simp [makeMsg, codeOfVal] at h
    | skipMe => simp [makeMsg, codeOfVal] at h
    | interrupt b0 => simp [makeMsg, codeOfVal] at h
    | cls => simp [makeMsg, codeOfVal] at h
    | pubList xs => simp [makeMsg, codeOfVal] at h
    | pyNone => simp [makeMsg, codeOfVal] at h

/-- C8 witness: the four resolution outcomes at concrete inputs. -/
theorem C8_lsid_resolution_witness :
    unpackLsid ctx8 (some "$ctx::msid") = .ok (some "m7")
    ∧ unpackLsid ctx0 (some "$ctx::msid") = .error (.notFoundErr "msid")
    ∧ unpackLsid ctx8 (some "$other")
        = .error (.valErr "unrecognized PubOpts.lsid operator")
    ∧ unpackLsid ctx8 (some "plain") = .ok (some "plain") :=
  ⟨(C8_lsid_resolution ctx8 "x" "m7").1 rfl (by decide),
   (C8_lsid_resolution ctx0 "x" "x").2.1 rfl,
   (C8_lsid_resolution ctx8 "$other" "x").2.2.2.1 (by decide) (by decide),
   (C8_lsid_resolution ctx8 "plain" "x").2.2.2.2.1 (by decide)⟩

theorem pubValsLoop_published (pubFn : PubFnT) (ctx : Ctx) (opts : PubOpts) :
    ∀ (vals : List SubRet) (st : BusState),
      (pubValsLoop pubFn ctx opts st vals).2.2
        = vals.map (fun v0 =>
            (match v0 with | SubRet.pyNone => SubRet.body okBody | _ => v0,
             opts.lsid)) := by
  intro vals
  induction vals with
  | nil => intro st; rfl
  | cons v rest ih =>
    intro st
    simp only [pubValsLoop, List.map_cons]
    rw [ih]

/-- C9. Subfn retval reduction: an Ok wrapper is replaced by its value and
an Err wrapper by its error value; SkipMe yields no bodies;
InterruptPipeline and a class value yield no bodies and a logged error; a
PubList yields its elements; any other value yields a one-element list;
and `_call_subfn` publishes each resulting value, with None replaced by
`ok()`, under the ambient subfn lsid defaulting to "$ctx::msid". -/
theorem C9_retval_reduction (env : SubEnv) (pubFn : PubFnT) (st : BusState)
    (ctx : Ctx) (f : SubFnId) (msg : BusMsg) (b : Mbody)
    (xs : List (Option Mbody)) :
    parseSubfnRetval (.rOk (.body b)) = ([.body b], false)
    ∧ parseSubfnRetval (.rErr (.body b)) = ([.body b], false)
    ∧ parseSubfnRetval .skipMe = ([], false)
    ∧ parseSubfnRetval (.interrupt b) = ([], true)
    ∧ parseSubfnRetval .cls = ([], true)
    ∧ parseSubfnRetval (.pubList xs)
        = (xs.map fun o => Option.elim o SubRet.pyNone SubRet.body, false)
    ∧ parseSubfnRetval (.body b) = ([.body b], false)
    ∧ parseSubfnRetval .pyNone = ([.pyNone], false)
    ∧ (callSubfn env pubFn st ctx f msg).2.2
        = ((parseSubfnRetval (env f msg.body)).1).map
            (fun v0 =>
              (match v0 with | SubRet.pyNone => SubRet.body okBody | _ => v0,
               some ((genCtx ctx msg).subfn_lsid.getD "$ctx::msid"))) := by
  refine ⟨rfl, rfl, rfl, rfl, rfl, ?_, rfl, rfl, ?_⟩
  · simp only [parseSubfnRetval]
    exact congrArg (fun z => (z, false))
      (List.map_congr_left fun o _ => by cases o <;> rfl)
  · by_cases he : ((parseSubfnRetval (env f msg.body)).1).isEmpty = true
    · have hnil : (parseSubfnRetval (env f msg.body)).1 = [] :=
        List.isEmpty_iff.mp he
      simp [callSubfn, he, hnil]
    · simp only [callSubfn, he, if_false, Bool.false_eq_true]
      exact pubValsLoop_published pubFn _ _ _ st

/-- C2 amended. Queue overflow behaviour of the code: the inbound path
uses put_nowait, which raises QueueFull on a full queue (no blocking, the
message is lost to the read loop) and enqueues otherwise; the outbound
path uses an awaited put, which suspends the publisher on a full queue (no
drop, no immediate return) and enqueues and continues otherwise; a missing
conn is skipped. -/
theorem C2_overflow_policy (q : PQueue) (c ctype : String) (r : Nat)
    (st : NetSt) (rest : List String) :
    (qfull q = true → readWsStep q c r = .queueFullRaised)
    ∧ (qfull q = false →
        readWsStep q c r = .enq { q with items := q.items ++ [(c, r)] })
    ∧ (dget st.sidToConnType c = some ctype →
        dget st.atransports ctype = some q → qfull q = true →
        pubRmsgToNet st r (c :: rest) = .blockedAt c st)
    ∧ (dget st.sidToConnType c = none →
        pubRmsgToNet st r (c :: rest) = pubRmsgToNet st r rest)
    ∧ (dget st.sidToConnType c = some ctype →
        dget st.atransports ctype = some q → qfull q = false →
        pubRmsgToNet st r (c :: rest)
          = pubRmsgToNet
              { st with atransports := dset st.atransports ctype ({ q with items := q.items ++ [(c, r)] }) }
              r rest) := by
  refine ⟨?_, ?_, ?_, ?_, ?_⟩
  · intro h; simp [readWsStep, putNowait, h]
  · intro h; simp [readWsStep, putNowait, h]
  · intro h1 h2 h3; simp [pubRmsgToNet, h1, h2, putBlocking, h3]
  · intro h1; simp [pubRmsgToNet, h1]
  · intro h1 h2 h3; simp [pubRmsgToNet, h1, h2, putBlocking, h3]

/-- C2 witness: at the concrete full queue the inbound put raises
QueueFull and the outbound loop suspends at the target. -/
theorem C2_overflow_policy_witness :
    qfull fullQ = true
    ∧ readWsStep fullQ "c1" 5 = .queueFullRaised
    ∧ pubRmsgToNet netStFull 5 ["c1"] = .blockedAt "c1" netStFull :=
  ⟨by decide,
   (C2_overflow_policy fullQ "c1" "ws" 5 netStFull []).1 (by decide),
   (C2_overflow_policy fullQ "c1" "ws" 5 netStFull []).2.2.1 (by decide)
     (by decide) (by decide)⟩

/-- C5 amended. pubr behaviour: a pub Err is returned as is; with no
delivery to the wrapper, a set timeout yields the timeout Err and no
timeout hangs; otherwise the result comes from the LAST body delivered to
the wrapper before the wait resumes (each wrapper call overwrites
ptr.target) — Err when it is an Exception instance, Ok otherwise. -/
theorem C5_pubr_behaviour (env : SubEnv) (fuel : Nat) (st : BusState)
    (ctx : Ctx) (inp : PubInp) (opts : PubOpts) (wid : SubFnId)
    (t : Option Nat) (e : YonErr) (b : Mbody) :
    ((pub env fuel st ctx inp { opts with subfn := some wid }).1 = .error e →
      pubrModel env fuel st ctx inp opts wid t = .errRes e)
    ∧ ((pub env fuel st ctx inp { opts with subfn := some wid }).1 = .ok () →
        wrapperDeliveries
            (pub env fuel st ctx inp { opts with subfn := some wid }).2.2 wid
          = [] →
        (∀ n, pubrModel env fuel st ctx inp opts wid (some n)
            = .errRes .timeoutErr)
        ∧ pubrModel env fuel st ctx inp opts wid none = .hang)
    ∧ ((pub env fuel st ctx inp { opts with subfn := some wid }).1 = .ok () →
        (wrapperDeliveries
            (pub env fuel st ctx inp { opts with subfn := some wid }).2.2
            wid).getLast? = some b →
        (b.isExc = true →
          pubrModel env fuel st ctx inp opts wid t = .errRes (.excErr b))
        ∧ (b.isExc = false →
          pubrModel env fuel st ctx inp opts wid t = .okRes b)) := by
  refine ⟨?_, ?_, ?_⟩
  · intro hr
    simp [pubrModel, hr]
  · intro hr hd
    constructor
    · intro n; simp [pubrModel, hr, hd]
    · simp [pubrModel, hr, hd]
  · intro hr hd
    constructor
    · intro hb; simp [pubrModel, hr, hd, hb]
    · intro hb; simp [pubrModel, hr, hd, hb]

/-- C5 witness: a pubr on a bus with no subscriber and no waiter gets no
reply, and with a timeout set returns the timeout Err. -/
theorem C5_pubr_behaviour_witness :
    pubrModel env6 2 stQuiet ctx0 (.val (.body mbC)) {} 0 (some 5)
      = .errRes .timeoutErr :=
  ((C5_pubr_behaviour env6 2 stQuiet ctx0 (.val (.body mbC)) {} 0 (some 5)
      .timeoutErr mbC).2.1 (by decide) (by decide)).1 5

/-- C10. A conn whose type has no active transport: the error is logged
and the conn closed, but the call does not return early — the
already-closed conn is inserted into the connection table, the welcome
send is attempted on it and raises, and the entry is removed only by the
exception/finally path of the main loop that follows, leaving the table as
before. -/
theorem C10_conn_no_transport (st : ConnTableSt) (c : ConnObj)
    (h1 : ¬ c.ctype ∈ st.transports)
    (h2 : dcontains st.sidToConn c.sid = false) :
    (connFn st c).2
      = [ConnEv.logNoTransport, ConnEv.closeConn, ConnEv.insertConn c.sid,
         ConnEv.sendWelcome, ConnEv.sendRaised, ConnEv.removeEntry c.sid]
    ∧ ((connFn st c).1).sidToConn = st.sidToConn := by
  constructor
  · simp [connFn, h1, h2]
  · simp [connFn, h1, h2, derase_dset_of_not_contains]

/-- C10 witness: the concrete "udp" conn against a bus with only a "ws"
transport. -/
theorem C10_conn_no_transport_witness :
    (connFn stX cX).2
      = [ConnEv.logNoTransport, ConnEv.closeConn, ConnEv.insertConn "cs1",
         ConnEv.sendWelcome, ConnEv.sendRaised, ConnEv.removeEntry "cs1"]
    ∧ ((connFn stX cX).1).sidToConn = stX.sidToConn :=
  C10_conn_no_transport stX cX (by decide) (by decide)

theorem sidOfOnly_nil : SidOfOnly [] := by
  intro s hs
  simp [markerSids] at hs

theorem sidOfOnly_append {l1 l2 : List Ev} (h1 : SidOfOnly l1)
    (h2 : SidOfOnly l2) : SidOfOnly (l1 ++ l2) := by
  intro s hs
  rw [markerSids, List.filterMap_append] at hs
  rcases List.mem_append.mp hs with h | h
  · exact h1 s h
  · exact h2 s h

theorem sidOfOnly_cons_nonmarker {ev : Ev} {evs : List Ev}
    (h0 : markerSid ev = none) (h : SidOfOnly evs) : SidOfOnly (ev :: evs) := by
  intro s hs
  rw [markerSids, List.filterMap_cons_none h0] at hs
  exact h s hs

theorem markerSids_eq_nil {evs : List Ev}
    (h : ∀ ev ∈ evs, markerSid ev = none) : markerSids evs = [] := by
  induction evs with
  | nil => rfl
  | cons e rest ih =>
    rw [markerSids, List.filterMap_cons_none (h e (by simp))]
    exact ih fun ev hev => h ev (by simp [hev])

theorem pubMsgToNet_no_markers (st : BusState) (msg : BusMsg) :
    ∀ ev ∈ pubMsgToNet st msg, markerSid ev = none := by
  intro ev hev
  unfold pubMsgToNet at hev
  split at hev
  · simp at hev
  · split at hev
    · simp at hev
    · split at hev
      · rcases List.mem_map.mp hev with ⟨c, -, rfl⟩
        rfl
      · simp at hev

theorem pubMsgToNet_sidOfOnly (st : BusState) (msg : BusMsg) :
    SidOfOnly (pubMsgToNet st msg) := by
  intro s hs
  rw [markerSids_eq_nil (pubMsgToNet_no_markers st msg)] at hs
  exact absurd hs (List.not_mem_nil s)

theorem pubValsLoop_markers (pubFn : PubFnT) (hp : ValMarkers pubFn)
    (ctx : Ctx) (opts : PubOpts) :
    ∀ (vals : List SubRet) (st : BusState),
      SidOfOnly (pubValsLoop pubFn ctx opts st vals).2.1 := by
  intro vals
  induction vals with
  | nil => intro st; exact sidOfOnly_nil
  | cons v rest ih =>
    intro st
    simp only [pubValsLoop]
    exact sidOfOnly_cons_nonmarker rfl
      (sidOfOnly_append (hp st ctx _ opts) (ih _))

theorem callSubfn_markers (env : SubEnv) (pubFn : PubFnT)
    (hp : ValMarkers pubFn) (st : BusState) (ctx : Ctx) (f : SubFnId)
    (msg : BusMsg) : SidOfOnly (callSubfn env pubFn st ctx f msg).2.1 := by
  unfold callSubfn
  by_cases he : ((parseSubfnRetval (env f msg.body)).1).isEmpty = true
  · simp only [he, if_true]
    exact sidOfOnly_cons_nonmarker rfl sidOfOnly_nil
  · simp only [he, if_false, Bool.false_eq_true]
    exact sidOfOnly_cons_nonmarker rfl (pubValsLoop_markers pubFn hp _ _ _ st)

theorem callSubfnList_markers (env : SubEnv) (pubFn : PubFnT)
    (hp : ValMarkers pubFn) (ctx : Ctx) (msg : BusMsg) :
    ∀ (fs : List SubFnId) (st : BusState),
      SidOfOnly (callSubfnList env pubFn ctx msg st fs).2 := by
  intro fs
  induction fs with
  | nil => intro st; exact sidOfOnly_nil
  | cons f rest ih =>
    intro st
    simp only [callSubfnList]
    exact sidOfOnly_append (callSubfn_markers env pubFn hp st ctx f msg) (ih _)

theorem sendToInnerBus_markers (env : SubEnv) (pubFn : PubFnT)
    (hp : ValMarkers pubFn) (st : BusState) (ctx : Ctx) (msg : BusMsg) :
    SidOfOnly (sendToInnerBus env pubFn st ctx msg).2 := by
  unfold sendToInnerBus
  exact callSubfnList_markers env pubFn hp ctx msg _ st

theorem sendAsLinked_markers (env : SubEnv) (pubFn : PubFnT)
    (hp : ValMarkers pubFn) (st : BusState) (ctx : Ctx) (msg : BusMsg) :
    SidOfOnly (sendAsLinked env pubFn st ctx msg).2 := by
  unfold sendAsLinked
  split
  · exact sidOfOnly_nil
  · split
    · exact sidOfOnly_nil
    · split
      · exact sidOfOnly_nil
      · exact sidOfOnly_cons_nonmarker rfl
          (callSubfn_markers env pubFn hp st ctx _ msg)

theorem no_own_marker {evs : List Ev} {s : String} (hm : SidOfOnly evs)
    (hfresh : ∀ n, ¬ sidOf n = s) :
    ∀ ev ∈ evs, ¬ markerSid ev = some s := by
  intro ev hev heq
  have hmem : s ∈ markerSids evs := List.mem_filterMap.mpr ⟨ev, hev, heq⟩
  obtain ⟨n, hn⟩ := hm s hmem
  exact hfresh n hn.symm

theorem stepMarkersOf_append (l1 l2 : List Ev) (s : String) :
    stepMarkersOf (l1 ++ l2) s = stepMarkersOf l1 s ++ stepMarkersOf l2 s := by
  unfold stepMarkersOf
  exact List.filter_append _ _

theorem stepMarkersOf_nil_of {evs : List Ev} {s : String}
    (h : ∀ ev ∈ evs, ¬ markerSid ev = some s) : stepMarkersOf evs s = [] := by
  rw [stepMarkersOf, List.filter_eq_nil_iff]
  intro a ha
  simp only [decide_eq_true_eq]
  exact h a ha

theorem stepMarkersOf_cons (ev : Ev) (evs : List Ev) (s : String) :
    stepMarkersOf (ev :: evs) s
      = if markerSid ev = some s then ev :: stepMarkersOf evs s
        else stepMarkersOf evs s := by
  rw [stepMarkersOf, List.filter_cons]
  by_cases h : markerSid ev = some s <;> simp [h, stepMarkersOf]

theorem part_markers (msid : String) {evs : List Ev} (hev : SidOfOnly evs)
    (flag : Bool) (mk : Ev) (hmk : markerSid mk = some msid) :
    ∀ s ∈ markerSids (if flag = true then mk :: evs else []),
      s = msid ∨ ∃ n, s = sidOf n := by
  intro s hs
  by_cases h : flag = true
  · rw [if_pos h, markerSids, List.filterMap_cons_some hmk] at hs
    rcases List.mem_cons.mp hs with h1 | h1
    · exact Or.inl h1
    · exact Or.inr (hev s h1)
  · rw [if_neg h] at hs
    exact absurd hs (by simp [markerSids])

theorem exec_markers_general (env : SubEnv) (pubFn : PubFnT)
    (hp : ValMarkers pubFn) (st : BusState) (ctx : Ctx) (msg : BusMsg)
    (opts : PubOpts) :
    ∀ s ∈ markerSids (execPubSendOrder env pubFn st ctx msg opts).2,
      s = msg.sid ∨ ∃ n, s = sidOf n := by
  intro s hs
  unfold execPubSendOrder at hs
  dsimp only at hs
  simp only [apply_ite Prod.fst, apply_ite Prod.snd] at hs
  rw [markerSids, List.filterMap_append, List.filterMap_append] at hs
  rcases List.mem_append.mp hs with hs12 | hsC
  · rcases List.mem_append.mp hs12 with hsA | hsB
    · exact part_markers msg.sid (pubMsgToNet_sidOfOnly st msg)
        opts.send_to_net (Ev.stepNet msg.sid) rfl s hsA
    · exact part_markers msg.sid
        (sendToInnerBus_markers env pubFn hp st ctx msg)
        (opts.send_to_inner && dcontains st.codeToSubfns msg.bodycode)
        (Ev.stepInner msg.sid) rfl s hsB
  · exact part_markers msg.sid
      (sendAsLinked_markers env pubFn hp _ ctx msg)
      (lsidTruthy msg.lsid) (Ev.stepLinked msg.sid) rfl s hsC

theorem pub_val_markers (env : SubEnv) : ∀ fuel, ValMarkers (pub env fuel) := by
  intro fuel
  induction fuel with
  | zero =>
    intro st ctx v opts
    exact sidOfOnly_nil
  | succ n ih =>
    intro st ctx v opts s hs
    have hs' : s ∈ markerSids
        (pubStep env (pub env n) st ctx (.val v) opts).2.2 := hs
    unfold pubStep at hs'
    cases hmk : mkEnvelope st ctx (unwrapOnce (.val v)) opts with
    | error e =>
      simp only [hmk] at hs'
      exact absurd hs' (by simp [markerSids])
    | ok p =>
      obtain ⟨msg, st1⟩ := p
      have hsid : msg.sid = sidOf st.nextSid := by
        have hval : ∃ v2, unwrapOnce (.val v) = PubInp.val v2 := by
          cases v <;> exact ⟨_, rfl⟩
        obtain ⟨v2, hv2⟩ := hval
        rw [hv2] at hmk
        simp only [mkEnvelope] at hmk
        exact (makeMsg_ok_state st ctx v2 opts msg st1 hmk).2
      simp only [hmk, checkNorpcMsg] at hs'
      have hfin : ∀ stf : BusState,
          s ∈ markerSids (pubFinish env (pub env n) stf ctx msg opts).2.2 →
          ∃ k, s = sidOf k := by
        intro stf hsf
        unfold pubFinish at hsf
        dsimp only at hsf
        rcases exec_markers_general env (pub env n) ih _ ctx msg opts s hsf
          with h | h
        · exact ⟨st.nextSid, h.trans hsid⟩
        · exact h
      cases hsub : opts.subfn with
      | none =>
        simp only [hsub] at hs'
        exact hfin st1 hs'
      | some f =>
        simp only [hsub] at hs'
        by_cases hcol : dcontains st1.lsidToSubfn msg.sid = true
        · rw [if_pos hcol] at hs'
          exact absurd hs' (by simp [markerSids])
        · rw [if_neg hcol] at hs'
          exact hfin _ hs'

theorem stepMarkersOf_partA (st : BusState) (msg : BusMsg) (flag : Bool) :
    stepMarkersOf
        (if flag = true then Ev.stepNet msg.sid :: pubMsgToNet st msg else [])
        msg.sid
      = if flag = true then [Ev.stepNet msg.sid] else [] := by
  by_cases h : flag = true
  · rw [if_pos h, if_pos h, stepMarkersOf_cons,
      if_pos (show markerSid (Ev.stepNet msg.sid) = some msg.sid from rfl),
      stepMarkersOf_nil_of fun ev hev heq => by
        rw [pubMsgToNet_no_markers st msg ev hev] at heq
        exact Option.noConfusion heq]
  · rw [if_neg h, if_neg h]
    rfl

theorem stepMarkersOf_partB (env : SubEnv) (pubFn : PubFnT)
    (hp : ValMarkers pubFn) (st : BusState) (ctx : Ctx) (msg : BusMsg)
    (hfresh : ∀ n, ¬ sidOf n = msg.sid) (g : Bool) :
    stepMarkersOf
        (if g = true
         then Ev.stepInner msg.sid :: (sendToInnerBus env pubFn st ctx msg).2
         else []) msg.sid
      = if g = true then [Ev.stepInner msg.sid] else [] := by
  by_cases h : g = true
  · rw [if_pos h, if_pos h, stepMarkersOf_cons,
      if_pos (show markerSid (Ev.stepInner msg.sid) = some msg.sid from rfl),
      stepMarkersOf_nil_of
        (no_own_marker (sendToInnerBus_markers env pubFn hp st ctx msg) hfresh)]
  · rw [if_neg h, if_neg h]
    rfl

theorem stepMarkersOf_partC (env : SubEnv) (pubFn : PubFnT)
    (hp : ValMarkers pubFn) (st1 : BusState) (ctx : Ctx) (msg : BusMsg)
    (hfresh : ∀ n, ¬ sidOf n = msg.sid) (g : Bool) :
    stepMarkersOf
        (if g = true
         then Ev.stepLinked msg.sid :: (sendAsLinked env pubFn st1 ctx msg).2
         else []) msg.sid
      = if g = true then [Ev.stepLinked msg.sid] else [] := by
  by_cases h : g = true
  · rw [if_pos h, if_pos h, stepMarkersOf_cons,
      if_pos (show markerSid (Ev.stepLinked msg.sid) = some msg.sid from rfl),
      stepMarkersOf_nil_of
        (no_own_marker (sendAsLinked_markers env pubFn hp st1 ctx msg) hfresh)]
  · rw [if_neg h, if_neg h]
    rfl

theorem exec_stepMarkers (env : SubEnv) (pubFn : PubFnT)
    (hp : ValMarkers pubFn) (st : BusState) (ctx : Ctx) (msg : BusMsg)
    (opts : PubOpts) (hfresh : ∀ n, ¬ sidOf n = msg.sid) :
    stepMarkersOf (execPubSendOrder env pubFn st ctx msg opts).2 msg.sid
      = (if opts.send_to_net = true then [Ev.stepNet msg.sid] else [])
        ++ (if (opts.send_to_inner && dcontains st.codeToSubfns msg.bodycode)
              = true
            then [Ev.stepInner msg.sid] else [])
        ++ (if lsidTruthy msg.lsid = true then [Ev.stepLinked msg.sid]
            else []) := by
  unfold execPubSendOrder
  dsimp only
  simp only [apply_ite Prod.fst, apply_ite Prod.snd]
  rw [stepMarkersOf_append, stepMarkersOf_append]
  rw [stepMarkersOf_partA st msg opts.send_to_net,
    stepMarkersOf_partB env pubFn hp st ctx msg hfresh _,
    stepMarkersOf_partC env pubFn hp _ ctx msg hfresh _]

/-- C6 amended. Publish send order: for every pub of an envelope (whose
sid is not one of the generated ones, so that the step markers of nested
republications cannot collide with it) that returns Ok, the send-order
steps entered for that envelope are exactly: the net step iff
`opts.send_to_net`, then the inner step iff `opts.send_to_inner` AND the
envelope's bodycode has an entry in `_code_to_subfns`, then the linked
step iff the envelope carries a truthy lsid — in that fixed order. -/
theorem C6_send_order (env : SubEnv) (fuel : Nat) (st : BusState) (ctx : Ctx)
    (m : BusMsg) (opts : PubOpts)
    (hfresh : ∀ n, ¬ sidOf n = m.sid)
    (hok : (pub env (fuel + 1) st ctx (.busMsg m) opts).1 = .ok ()) :
    stepMarkersOf (pub env (fuel + 1) st ctx (.busMsg m) opts).2.2 m.sid
      = (if opts.send_to_net = true then [Ev.stepNet m.sid] else [])
        ++ (if (opts.send_to_inner && dcontains st.codeToSubfns m.bodycode)
              = true
            then [Ev.stepInner m.sid] else [])
        ++ (if lsidTruthy m.lsid = true then [Ev.stepLinked m.sid]
            else []) := by
  cases hsub : opts.subfn with
  | none =>
    have hps : pub env (fuel + 1) st ctx (.busMsg m) opts
        = pubFinish env (pub env fuel) st ctx m opts := by
      show pubStep env (pub env fuel) st ctx (.busMsg m) opts = _
      simp [pubStep, mkEnvelope, unwrapOnce, checkNorpcMsg, hsub]
    rw [hps]
    unfold pubFinish
    dsimp only
    exact exec_stepMarkers env (pub env fuel) (pub_val_markers env fuel) _ ctx
      m opts hfresh
  | some f =>
    by_cases hcol : dcontains st.lsidToSubfn m.sid = true
    · rw [pub_collision env fuel st ctx m opts f hsub hcol] at hok
      exact absurd hok (by simp)
    · have hps : pub env (fuel + 1) st ctx (.busMsg m) opts
          = pubFinish env (pub env fuel)
              { st with lsidToSubfn := dset st.lsidToSubfn m.sid f }
              ctx m opts := by
        show pubStep env (pub env fuel) st ctx (.busMsg m) opts = _
        simp [pubStep, mkEnvelope, unwrapOnce, checkNorpcMsg, hsub, hcol]
      rw [hps]
      unfold pubFinish
      dsimp only
      exact exec_stepMarkers env (pub env fuel) (pub_val_markers env fuel) _ ctx
        m opts hfresh

/-- C6 witness: a full scenario (a subscriber on the code, a waiter on the
lsid, both send flags on) whose send-order trace for the envelope is
exactly net, inner, linked. -/
theorem C6_send_order_witness :
    stepMarkersOf (pub env6 2 st6b ctx0 (.busMsg m6b) {}).2.2 "m1"
      = [Ev.stepNet "m1", Ev.stepInner "m1", Ev.stepLinked "m1"] := by
  have hfresh : ∀ n, ¬ sidOf n = "m1" := by
    intro n h
    have hl := congrArg String.length h
    rw [show sidOf n = "sid" ++ toString n from rfl,
      String.length_append] at hl
    have e1 : "sid".length = 3 := by decide
    have e2 : "m1".length = 2 := by decide
    rw [e1, e2] at hl
    omega
  have h := C6_send_order env6 1 st6b ctx0 m6b {} hfresh (by decide)
  exact h.trans (by decide)

end Yon
